import Mathlib

/-!
Verification of the document state synchronization and compression logic of
src/main.js (a client-side markdown editor that persists its document in the
link fragment and in localStorage).

The development shallow-embeds the code:

* toBase64Url / fromBase64Url (main.js lines 15-35) over byte lists (Nat < 256);
* compress / decompress (lines 37-61) parameterized by a Codec structure that
  stands for the browser primitives TextEncoder/TextDecoder and
  CompressionStream/DecompressionStream, which are platform facilities, not
  repository code;
* the synchronizer (updateDispatch lines 117-144, init lines 147-157, the
  update listener lines 186-190 and the hashchange listener lines 211-222) as
  a step function over an explicit AppState, with ghost logs recording each
  firing of the deferred save action and each invocation of compress.

One point of the embedding deserves emphasis because several theorems depend
on it: main.js line 8 imports a binding named history from
@codemirror/commands.  That module-scope import shadows window.history inside
updateDispatch, so the calls history.replaceState(...) on lines 129 and 131
throw a TypeError at run time (the imported history is a plain function with
no replaceState method).  The commit callback therefore aborts right after the
localStorage write (and, for non-empty content, after the compress call); the
link fragment and the document title are never updated by a commit.
-/

/-! ## Byte to token codec (main.js lines 15-35) -/

/-- Alphabet used by btoa, in index order.  toBase64Url then rewrites the two
characters that need escaping in a fragment. -/
def b64Alphabet : List Char :=
  "ABCDEFGHIJKLMNOPQRSTUVWXYZabcdefghijklmnopqrstuvwxyz0123456789+/".data

/-- Character for a 6-bit group, as produced by btoa. -/
def sextetChar (n : Nat) : Char := b64Alphabet.getD n 'A'

/-- Source line 18-19: replace + with - and / with _ in the btoa output. -/
def urlSafeChar (c : Char) : Char :=
  if c = '+' then '-' else if c = '/' then '_' else c

/-- Packing of a byte list into 6-bit groups, exactly the grouping btoa
performs on the binary string built at line 16: three bytes become four
sextets; a two-byte tail becomes three sextets and a one-byte tail two
sextets (btoa would append = padding, which line 20 strips again, so the
model never materializes it). -/
def bytesToSextets : List Nat → List Nat
  | b0 :: b1 :: b2 :: rest =>
      b0 / 4 :: (b0 % 4 * 16 + b1 / 16) :: (b1 % 16 * 4 + b2 / 64) :: b2 % 64 ::
        bytesToSextets rest
  | [b0, b1] => [b0 / 4, b0 % 4 * 16 + b1 / 16, b1 % 16 * 4]
  | [b0] => [b0 / 4, b0 % 4 * 16]
  | [] => []

/-- toBase64Url (main.js lines 15-21): btoa of the byte string, with the
URL-unsafe characters replaced and the trailing = padding stripped. -/
def toBase64Url (u8 : List Nat) : List Char :=
  (bytesToSextets u8).map (fun n => urlSafeChar (sextetChar n))

/-- Source lines 24-26: undo the two character replacements. -/
def fromUrlSafeChar (c : Char) : Char :=
  if c = '-' then '+' else if c = '_' then '/' else c

/-- Index of a character in the btoa alphabet; none models atob throwing an
InvalidCharacterError on a character outside the alphabet.  (atob also
accepts explicit trailing = padding; encoded tokens never contain =, and no
claim exercises such tokens, so = is simply not in the alphabet here.) -/
def sextetIndex (c : Char) : Option Nat := b64Alphabet.findIdx? (fun x => x == c)

/-- Conversion of every character of a token to its 6-bit value, failing as
atob does if any character is invalid. -/
def sextetsOf : List Char → Option (List Nat)
  | [] => some []
  | c :: cs =>
    match sextetIndex (fromUrlSafeChar c), sextetsOf cs with
    | some v, some vs => some (v :: vs)
    | _, _ => none

/-- Inverse packing: four sextets back to three bytes, with a three-sextet
tail giving two bytes and a two-sextet tail one byte — exactly what atob
yields once lines 27-28 have reconstructed the padding from the length. -/
def sextetsToBytes : List Nat → List Nat
  | s0 :: s1 :: s2 :: s3 :: rest =>
      (s0 * 4 + s1 / 16) :: (s1 % 16 * 16 + s2 / 4) :: (s2 % 4 * 64 + s3) ::
        sextetsToBytes rest
  | [s0, s1, s2] => [s0 * 4 + s1 / 16, s1 % 16 * 16 + s2 / 4]
  | [s0, s1] => [s0 * 4 + s1 / 16]
  | [_] => []
  | [] => []

/-- fromBase64Url (main.js lines 23-35).  A length congruent to 1 mod 4 is
padded by line 28 to a string atob rejects, hence none; so is any character
outside the (un-replaced) alphabet. -/
def fromBase64Url (s : List Char) : Option (List Nat) :=
  if s.length % 4 = 1 then none
  else
    match sextetsOf s with
    | none => none
    | some sextets => some (sextetsToBytes sextets)

/-! ## Text to compressed-bytes codec (main.js lines 37-61) -/

/-- Modelled from the spec: the platform primitives used by compress and
decompress — TextEncoder.encode / TextDecoder.decode and
CompressionStream / DecompressionStream with the deflate-raw format — are
browser facilities, not code of this repository.  Spec section 4.2 gives
their contract: a reversible, stateless text/byte transform whose failure
modes are UnavailableCodec (compression side, modelled as deflateRaw
returning none and so propagating like the uncaught exception in compress)
and DecompressError (decompression side, modelled as inflateRaw returning
none, which decompress catches).  Theorems about compress and decompress
take the reversibility laws of section 4.2 as hypotheses on this structure. -/
structure Codec where
  utf8Encode : String → List Nat
  utf8Decode : List Nat → String
  deflateRaw : List Nat → Option (List Nat)
  inflateRaw : List Nat → Option (List Nat)

/-- compress (main.js lines 37-46): utf-8 encode, deflate-raw, base64url.
There is no try/catch here: an unavailable or failing CompressionStream
(deflateRaw = none) propagates to the caller, modelled by the none result. -/
def compress (P : Codec) (s : String) : Option String :=
  (P.deflateRaw (P.utf8Encode s)).map (fun bs => String.mk (toBase64Url bs))

/-- decompress (main.js lines 48-61): base64url decode, inflate, utf-8
decode, with the whole body wrapped in try/catch returning "" on any
failure (line 57-60). -/
def decompress (P : Codec) (b64 : String) : String :=
  match fromBase64Url b64.data with
  | none => ""
  | some byteArray =>
    match P.inflateRaw byteArray with
    | none => ""
    | some buffer => P.utf8Decode buffer

/-! ## Title derivation and trimming (main.js lines 127, 134-142) -/

/-- Whitespace characters recognized by the JavaScript trim used at lines
127 and 135 (the common ones; JavaScript also trims a few rarer Unicode
space characters, which no claim exercises). -/
def wsChars : List Char :=
  [' ', '\t', '\n', '\r', Char.ofNat 11, Char.ofNat 12, Char.ofNat 160, Char.ofNat 0xFEFF]

/-- Whether a character is trimmed by String.prototype.trim. -/
def isJsWs (c : Char) : Bool := wsChars.contains c

/-- String.prototype.trim on a character list: drop whitespace from both
ends. -/
def jsTrim (l : List Char) : List Char :=
  ((l.dropWhile isJsWs).reverse.dropWhile isJsWs).reverse

/-- Title derivation, main.js lines 134-142: first line (split on newline),
trimmed; a line starting with the level-1 heading marker and a space yields
its remainder (substring(2)); otherwise a non-empty line yields itself;
otherwise the fixed default. -/
def deriveTitle (content : String) : String :=
  let firstLine := jsTrim (content.data.takeWhile (fun c => c != '\n'))
  if ['#', ' '].isPrefixOf firstLine then String.mk (firstLine.drop 2)
  else if 0 < firstLine.length then String.mk firstLine
  else "Markdown Editor"

/-- Title derivation as claim C8 words it, including its bounded-length
condition on the non-heading branch: the trimmed first line is used only
when non-empty and within the bound, else the fixed default.  Written from
the claim, to be compared with deriveTitle (which is written from the
source). -/
def claimTitle (bound : Nat) (content : String) : String :=
  let firstLine := jsTrim (content.data.takeWhile (fun c => c != '\n'))
  if firstLine.take 2 = ['#', ' '] then String.mk (firstLine.drop 2)
  else if firstLine = [] then "Markdown Editor"
  else if firstLine.length ≤ bound then String.mk firstLine
  else "Markdown Editor"

/-- Title derivation as amended for claim C8: identical to the claim's rule
except that the non-heading branch has no length bound, matching line 138 of
the source which tests only firstLine.length > 0. -/
def amendedTitle (content : String) : String :=
  let firstLine := jsTrim (content.data.takeWhile (fun c => c != '\n'))
  if firstLine = [] then "Markdown Editor"
  else if firstLine.take 2 = ['#', ' '] then String.mk (firstLine.drop 2)
  else String.mk firstLine

/-! ## The synchronizer state machine (main.js lines 117-144, 147-157,
186-190, 211-222) -/

/-- Observable state of the page.  doc is the live editor buffer, saveTimer
the single outstanding deferred action (window.saveTimer) carrying the
content captured when updateDispatch ran, cache the localStorage entry
under the key markdown-content, hash the link fragment token (none when the
location has no fragment), title the document title.  fired and
compressCalls are ghost histories used to state temporal claims: fired
records the captured content of every deferred action that fired (every
commit attempt), compressCalls every invocation of compress. -/
structure AppState where
  doc : String
  saveTimer : Option String
  cache : Option String
  hash : Option String
  title : String
  fired : List String
  compressCalls : List String
deriving Repr, DecidableEq

/-- Events driving the synchronizer.  edit d is a user edit that makes the
buffer d (the update listener at lines 186-190 reacts only when the document
actually changed); timerFire is the 500ms debounce delay elapsing with no
intervening edit; hashchange h is an external change of the fragment
(navigation, back/forward, pasted link); compStart and compEnd are
composition start and end notifications from the editing widget. -/
inductive Ev where
  | edit (d : String)
  | timerFire
  | hashchange (h : Option String)
  | compStart
  | compEnd

/-- updateDispatch, main.js lines 117-122 (the part that runs synchronously):
read the current document, cancel any scheduled deferred action
(clearTimeout) and schedule a fresh one capturing that content
(setTimeout). -/
def updateDispatch (s : AppState) : AppState :=
  { s with saveTimer := some s.doc }

/-- Body of the deferred action scheduled by updateDispatch (main.js lines
122-143), run when the timer fires with its captured content.  Order is the
source's: (1) localStorage.setItem writes the cache; (2) if the trimmed
content is non-empty, compress is awaited (an exception there aborts the
callback with the cache already written); (3) history.replaceState is
called — but the module-scope name history is the binding imported on line 8
from @codemirror/commands, not window.history, so this call throws a
TypeError in every branch and neither the link fragment nor the title lines
134-142 are ever reached.  The ghost fired log records the firing itself. -/
def commitStep (P : Codec) (content : String) (s : AppState) : AppState :=
  let s1 := { s with saveTimer := none, cache := some content,
                     fired := s.fired ++ [content] }
  if 0 < (jsTrim content.data).length then
    let s2 := { s1 with compressCalls := s1.compressCalls ++ [content] }
    match compress P content with
    | none => s2
    | some _tok => s2
  else
    s1

/-- One step of the synchronizer.

edit d: the update listener (lines 186-190) calls updateDispatch whenever a
transaction changed the document — CodeMirror update listeners run for every
dispatched transaction, programmatic or user-typed, which is also why the
hashchange branch below re-enters updateDispatch.

timerFire: the deferred action fires with its captured content.

hashchange h: the listener at lines 211-222 — if the new fragment is
non-empty, decompress it; if the result is non-empty and differs from the
buffer, replace the whole buffer via view.dispatch, which synchronously
triggers the same update listener and hence updateDispatch.

compStart / compEnd: the source registers no composition handlers of any
kind, so these notifications leave the synchronizer untouched. -/
def step (P : Codec) (s : AppState) : Ev → AppState
  | Ev.edit d => if d = s.doc then s else updateDispatch { s with doc := d }
  | Ev.timerFire =>
    match s.saveTimer with
    | none => s
    | some content => commitStep P content s
  | Ev.hashchange h =>
    let s1 := { s with hash := h }
    match h with
    | none => s1
    | some tok =>
      if 0 < tok.length then
        let urlContent := decompress P tok
        if urlContent ≠ "" ∧ urlContent ≠ s1.doc then
          updateDispatch { s1 with doc := urlContent }
        else s1
      else s1
  | Ev.compStart => s
  | Ev.compEnd => s

/-- Run of a sequence of events. -/
def run (P : Codec) (s : AppState) (evs : List Ev) : AppState :=
  evs.foldl (step P) s

/-- Built-in default document, main.js line 148. -/
def dfltDoc : String := "# Hello\n\nWrite something..."

/-- Fallback of init when the fragment branch is not taken (main.js lines
154-156): a stored localStorage value is used only if truthy, i.e.
non-empty. -/
def cacheOrDefault : Option String → String
  | some stored => if 0 < stored.length then stored else dfltDoc
  | none => dfltDoc

/-- Initial document resolution, init at main.js lines 147-157.  The
location.hash.length > 1 test holds exactly when a fragment with a
non-empty token is present; note that when it holds, the localStorage
branch is the else of that test and is skipped even if the decode fails. -/
def initialContent (P : Codec) (hash0 : Option String) (cache0 : Option String) : String :=
  match hash0 with
  | some tok =>
    if 0 < tok.length then
      let dec := decompress P tok
      if 0 < dec.length then dec else dfltDoc
    else cacheOrDefault cache0
  | none => cacheOrDefault cache0

/-- Validity of a burst of edits: each one actually changes the document
(so each triggers the docChanged update listener). -/
def editsOK : String → List String → Bool
  | _, [] => true
  | doc, d :: rest => (d != doc) && editsOK d rest

/-! ## Concrete witness data -/

/-- Concrete instantiation of the platform codec contract, used only to
evaluate theorems on explicit inputs: characters are encoded as three
base-256 digits of their code point and the deflate stage is the identity.
It satisfies the reversibility laws of spec section 4.2 that the theorems
take as hypotheses; it is not the browser's deflate. -/
def utf8E0 (s : String) : List Nat :=
  (s.data.map (fun c => [c.toNat / 65536, c.toNat / 256 % 256, c.toNat % 256])).flatten

/-- Inverse of utf8E0 on full three-byte groups (a trailing partial group is
dropped, as no valid utf8E0 output has one). -/
def utf8D0 : List Nat → List Char
  | a :: b :: c :: rest => Char.ofNat (a * 65536 + b * 256 + c) :: utf8D0 rest
  | _ => []

/-- Witness codec built from utf8E0/utf8D0 with identity deflate. -/
def P0 : Codec :=
  { utf8Encode := utf8E0
    utf8Decode := fun l => String.mk (utf8D0 l)
    deflateRaw := fun bs => some bs
    inflateRaw := fun bs => some bs }

/-- Witness codec whose compression stage always fails, modelling a runtime
where CompressionStream is unavailable or throws. -/
def Pfail : Codec :=
  { P0 with deflateRaw := fun _ => none }

/-- Idle page state used by several concrete evaluations. -/
def s0 : AppState :=
  { doc := "", saveTimer := none, cache := none, hash := none,
    title := "", fired := [], compressCalls := [] }

/-- Page state with a pending deferred action for content p. -/
def sPend : AppState :=
  { doc := "p", saveTimer := some "p", cache := none, hash := none,
    title := "", fired := [], compressCalls := [] }

/-- Idle page state whose buffer is b, with existing cache and link token,
used for the hashchange evaluation (the token AAB4 decodes, under P0, to
the single-character document x). -/
def sNav : AppState :=
  { doc := "b", saveTimer := none, cache := some "old", hash := some "OLD",
    title := "t", fired := [], compressCalls := [] }

/-- State about to commit an empty document while the link still holds a
token. -/
def sEmpty : AppState :=
  { doc := "", saveTimer := some "", cache := some "prev", hash := some "OLD",
    title := "t0", fired := [], compressCalls := [] }

/-- State about to commit a whitespace-only document. -/
def sWs : AppState :=
  { doc := "  ", saveTimer := some "  ", cache := some "prev", hash := some "OLD",
    title := "t0", fired := [], compressCalls := [] }

/-- State about to commit new content over an older successfully committed
state. -/
def sOld : AppState :=
  { doc := "new", saveTimer := some "new", cache := some "old", hash := some "H",
    title := "t0", fired := [], compressCalls := [] }

/-! ## Base64url round-trip (claim C4) -/

/-- Each 6-bit value survives the character encoding, URL-safe replacement,
its inverse, and the alphabet lookup. -/
theorem sextet_char_round :
    ∀ n, n < 64 → sextetIndex (fromUrlSafeChar (urlSafeChar (sextetChar n))) = some n := by
  decide

/-- All 6-bit groups produced from genuine bytes are below 64. -/
theorem bytesToSextets_lt : ∀ (bs : List Nat), (∀ b ∈ bs, b < 256) →
    ∀ x ∈ bytesToSextets bs, x < 64 := by
  intro bs
  induction bs using bytesToSextets.induct with
  | case1 b0 b1 b2 rest ih =>
    intro h x hx
    have hb0 : b0 < 256 := h b0 (by simp)
    have hb1 : b1 < 256 := h b1 (by simp)
    have hb2 : b2 < 256 := h b2 (by simp)
    simp only [bytesToSextets, List.mem_cons] at hx
    rcases hx with rfl | rfl | rfl | rfl | hx
    · omega
    · omega
    · omega
    · omega
    · exact ih (fun b hb => h b (by simp [hb])) x hx
  | case2 b0 b1 =>
    intro h x hx
    have hb0 : b0 < 256 := h b0 (by simp)
    have hb1 : b1 < 256 := h b1 (by simp)
    simp only [bytesToSextets, List.mem_cons, List.not_mem_nil, or_false] at hx
    rcases hx with rfl | rfl | rfl <;> omega
  | case3 b0 =>
    intro h x hx
    have hb0 : b0 < 256 := h b0 (by simp)
    simp only [bytesToSextets, List.mem_cons, List.not_mem_nil, or_false] at hx
    rcases hx with rfl | rfl <;> omega
  | case4 =>
    intro h x hx
    simp [bytesToSextets] at hx

/-- The encoded length is never congruent to 1 mod 4, so the padding
reconstructed at lines 27-28 is always one atob accepts. -/
theorem bytesToSextets_len : ∀ (bs : List Nat), (bytesToSextets bs).length % 4 ≠ 1 := by
  intro bs
  induction bs using bytesToSextets.induct with
  | case1 b0 b1 b2 rest ih =>
    simp only [bytesToSextets, List.length_cons]
    omega
  | case2 b0 b1 => simp [bytesToSextets]
  | case3 b0 => simp [bytesToSextets]
  | case4 => simp [bytesToSextets]

/-- Scanning the encoded characters back recovers exactly the 6-bit groups. -/
theorem sextetsOf_map (ss : List Nat) (h : ∀ x ∈ ss, x < 64) :
    sextetsOf (ss.map (fun n => urlSafeChar (sextetChar n))) = some ss := by
  induction ss with
  | nil => rfl
  | cons v vs ih =>
    have hv : v < 64 := h v (by simp)
    simp only [List.map_cons, sextetsOf]
    rw [sextet_char_round v hv, ih (fun x hx => h x (by simp [hx]))]

/-- Unpacking the 6-bit groups recovers the original bytes. -/
theorem sextetsToBytes_bytesToSextets : ∀ (bs : List Nat), (∀ b ∈ bs, b < 256) →
    sextetsToBytes (bytesToSextets bs) = bs := by
  intro bs
  induction bs using bytesToSextets.induct with
  | case1 b0 b1 b2 rest ih =>
    intro h
    have hb0 : b0 < 256 := h b0 (by simp)
    have hb1 : b1 < 256 := h b1 (by simp)
    have hb2 : b2 < 256 := h b2 (by simp)
    simp only [bytesToSextets, sextetsToBytes, List.cons.injEq]
    exact ⟨by omega, by omega, by omega, ih (fun b hb => h b (by simp [hb]))⟩
  | case2 b0 b1 =>
    intro h
    have hb0 : b0 < 256 := h b0 (by simp)
    have hb1 : b1 < 256 := h b1 (by simp)
    simp only [bytesToSextets, sextetsToBytes, List.cons.injEq]
    exact ⟨by omega, by omega, trivial⟩
  | case3 b0 =>
    intro h
    have hb0 : b0 < 256 := h b0 (by simp)
    simp only [bytesToSextets, sextetsToBytes, List.cons.injEq]
    exact ⟨by omega, trivial⟩
  | case4 => intro h; rfl

/-- Full byte-to-token round trip of the source codec. -/
theorem b64_roundtrip (u8 : List Nat) (h : ∀ b ∈ u8, b < 256) :
    fromBase64Url (toBase64Url u8) = some u8 := by
  have hlen : ¬ ((toBase64Url u8).length % 4 = 1) := by
    simpa [toBase64Url, List.length_map] using bytesToSextets_len u8
  rw [fromBase64Url, if_neg hlen, toBase64Url, sextetsOf_map _ (bytesToSextets_lt u8 h)]
  show some (sextetsToBytes (bytesToSextets u8)) = some u8
  rw [sextetsToBytes_bytesToSextets u8 h]

/-- C4: for every byte sequence b, decoding the token produced by encoding b
yields b back; the codec targets the 64-symbol URL-safe alphabet with
trailing padding omitted on encode and reconstructed from the token length
on decode. -/
theorem c4_token_roundtrip (u8 : List Nat) (h : ∀ b ∈ u8, b < 256) :
    fromBase64Url (toBase64Url u8) = some u8 :=
  b64_roundtrip u8 h

/-- Witness for C4 at the concrete byte sequence [77, 97, 0, 255, 10]. -/
theorem c4_token_roundtrip_witness :
    (∀ b ∈ [77, 97, 0, 255, 10], b < 256) ∧
      fromBase64Url (toBase64Url [77, 97, 0, 255, 10]) = some [77, 97, 0, 255, 10] :=
  ⟨by decide, c4_token_roundtrip [77, 97, 0, 255, 10] (by decide)⟩

/-! ## Compression round-trip (claim C5) -/

/-- C5: for every text t, when the compression facility is available
(deflateRaw succeeded) and the platform codec satisfies the reversibility
contract of spec section 4.2 on this input, decompressing the result of
compressing t yields t back.  The repository's own layers — the base64url
token codec and the composition order — are proved; the platform laws are
the stated hypotheses. -/
theorem c5_compress_roundtrip (P : Codec) (t : String) (d : List Nat)
    (havail : P.deflateRaw (P.utf8Encode t) = some d)
    (hbyte : ∀ b ∈ d, b < 256)
    (hinfl : P.inflateRaw d = some (P.utf8Encode t))
    (hutf : P.utf8Decode (P.utf8Encode t) = t) :
    compress P t = some (String.mk (toBase64Url d)) ∧
      decompress P (String.mk (toBase64Url d)) = t := by
  constructor
  · rw [compress, havail]
    rfl
  · rw [decompress]
    have hdata : (String.mk (toBase64Url d)).data = toBase64Url d := rfl
    rw [hdata, b64_roundtrip d hbyte]
    show (match P.inflateRaw d with
      | none => ""
      | some buffer => P.utf8Decode buffer) = t
    rw [hinfl]
    exact hutf

/-- Witness for C5 at the concrete document Hi under the witness codec. -/
theorem c5_compress_roundtrip_witness :
    compress P0 "Hi" = some (String.mk (toBase64Url (utf8E0 "Hi"))) ∧
      decompress P0 (String.mk (toBase64Url (utf8E0 "Hi"))) = "Hi" :=
  c5_compress_roundtrip P0 "Hi" (utf8E0 "Hi") rfl (by decide) rfl (by decide)

/-! ## Generic facts about the commit path -/

/-- Characterization of one firing of the deferred action: the cache always
receives the captured content and the fired log grows, compress is invoked
exactly when the trimmed content is non-empty, and — because the
history.replaceState calls throw (shadowed import, main.js line 8) — the
hash, the title and the buffer are never touched, whether or not compress
succeeded. -/
theorem commitStep_eq (P : Codec) (c : String) (s : AppState) :
    commitStep P c s =
      { s with saveTimer := none, cache := some c, fired := s.fired ++ [c],
               compressCalls := if 0 < (jsTrim c.data).length
                 then s.compressCalls ++ [c] else s.compressCalls } := by
  simp only [commitStep]
  by_cases h : 0 < (jsTrim c.data).length
  · rw [if_pos h, if_pos h]
    cases compress P c <;> rfl
  · rw [if_neg h, if_neg h]

/-- An edit that changes the document replaces the buffer and (via the
update listener) schedules a deferred action capturing the new content. -/
theorem step_edit (P : Codec) (s : AppState) (d : String) (h : d ≠ s.doc) :
    step P s (Ev.edit d) = { s with doc := d, saveTimer := some d } := by
  simp only [step]
  rw [if_neg h]
  rfl

/-- Unfolding of run on a first event. -/
theorem run_cons (P : Codec) (s : AppState) (e : Ev) (evs : List Ev) :
    run P s (e :: evs) = run P (step P s e) evs := rfl

/-- A valid burst of edits leaves the buffer at the last edit and exactly
one deferred action pending, capturing that last content; nothing else of
the state moves (each earlier edit's scheduled action was cancelled by the
next clearTimeout). -/
theorem run_edits (P : Codec) :
    ∀ (ds : List String) (s : AppState) (hne : ds ≠ []), editsOK s.doc ds = true →
      run P s (ds.map Ev.edit) =
        { s with doc := ds.getLast hne, saveTimer := some (ds.getLast hne) } := by
  intro ds
  induction ds with
  | nil => intro s hne _; exact absurd rfl hne
  | cons d rest ih =>
    intro s hne hok
    have hok' : (d != s.doc) = true ∧ editsOK d rest = true := by
      simpa [editsOK, Bool.and_eq_true] using hok
    have hd : d ≠ s.doc := by simpa [bne_iff_ne] using hok'.1
    rcases rest with _ | ⟨d2, rest2⟩
    · simp only [List.map_cons, List.map_nil]
      rw [run_cons, step_edit P s d hd]
      rfl
    · rw [List.map_cons, run_cons, step_edit P s d hd]
      have h2 : (d2 :: rest2) ≠ [] := by simp
      rw [ih { s with doc := d, saveTimer := some d } h2 hok'.2]
      have hlast : (d :: d2 :: rest2).getLast hne = (d2 :: rest2).getLast h2 :=
        List.getLast_cons h2
      rw [hlast]

/-! ## Debounce coalescing (claim C6) -/

/-- C6: a burst of N document-changing edits with no timer expiry between
them produces exactly one firing of the deferred action, and that firing
reflects only the final snapshot: before the delay elapses the single
pending action captures the last edit, and after it fires the fired log has
grown by exactly that one content, the cache holds it, and no action
remains scheduled. -/
theorem c6_debounce (P : Codec) (s : AppState) (ds : List String) (hne : ds ≠ [])
    (hok : editsOK s.doc ds = true) :
    (run P s (ds.map Ev.edit)).saveTimer = some (ds.getLast hne) ∧
    (run P s (ds.map Ev.edit ++ [Ev.timerFire])).fired = s.fired ++ [ds.getLast hne] ∧
    (run P s (ds.map Ev.edit ++ [Ev.timerFire])).cache = some (ds.getLast hne) ∧
    (run P s (ds.map Ev.edit ++ [Ev.timerFire])).saveTimer = none := by
  have hre := run_edits P ds s hne hok
  have hrun : run P s (ds.map Ev.edit ++ [Ev.timerFire])
      = commitStep P (ds.getLast hne) (run P s (ds.map Ev.edit)) := by
    rw [run, List.foldl_append]
    show step P (run P s (ds.map Ev.edit)) Ev.timerFire = _
    rw [hre]
    rfl
  refine ⟨by rw [hre], ?_, ?_, ?_⟩ <;> rw [hrun, commitStep_eq, hre]

/-- Witness for C6: a burst of three edits from the idle state commits once,
with the final snapshot. -/
theorem c6_debounce_witness :
    (run P0 s0 (["a", "ab", "abc"].map Ev.edit)).saveTimer = some "abc" ∧
    (run P0 s0 (["a", "ab", "abc"].map Ev.edit ++ [Ev.timerFire])).fired = s0.fired ++ ["abc"] ∧
    (run P0 s0 (["a", "ab", "abc"].map Ev.edit ++ [Ev.timerFire])).cache = some "abc" ∧
    (run P0 s0 (["a", "ab", "abc"].map Ev.edit ++ [Ev.timerFire])).saveTimer = none :=
  c6_debounce P0 s0 ["a", "ab", "abc"] (by decide) (by decide)

/-! ## Navigation reentrancy (claim C1) -/

/-- C1 fails on the code: reconciling an externally-changed link token DOES
produce an Idle to Pending transition.  The hashchange listener replaces the
buffer through view.dispatch, and that transaction runs through the same
update listener as user typing (main.js lines 186-190), which calls
updateDispatch and schedules a new debounced commit.  Concretely: from an
idle state with buffer b, a hashchange to the token AAB4 (which decodes,
under the witness codec, to the document x) leaves a deferred action
pending with the decoded content, and letting it elapse fires a commit —
the transition the claim says never happens.  (The recompressed link is not
actually rewritten at run time only because history.replaceState throws,
see the module doc.) -/
theorem c1_external_reconciliation_schedules_commit :
    sNav.saveTimer = none ∧
    (step P0 sNav (Ev.hashchange (some "AAB4"))).doc = "x" ∧
    (step P0 sNav (Ev.hashchange (some "AAB4"))).saveTimer = some "x" ∧
    (run P0 sNav [Ev.hashchange (some "AAB4"), Ev.timerFire]).fired = ["x"] := by
  decide

/-! ## Composition suppression (claim C2) -/

/-- Counterexample to C2: the source registers no composition handlers, so a
commit can perfectly well fire between composition start and composition
end.  From the idle state, the run compStart, edit, timerFire — in which
composition never ended — fires a commit, where the claim requires zero
commits while composition is in progress; and a composition start leaves an
already-scheduled deferred action pending, where the claim requires it to be
cancelled. -/
theorem c2_commit_fires_during_composition :
    (run P0 s0 [Ev.compStart, Ev.edit "abc", Ev.timerFire]).fired = ["abc"] ∧
    (step P0 sPend Ev.compStart).saveTimer = some "p" := by
  decide

/-- C2 as amended: composition notifications are inert for the synchronizer
(no handler exists), and an edit during composition debounces exactly like
any other edit, so its deferred action can fire — producing a commit — while
composition is still in progress. -/
theorem c2_amended_composition_inert (P : Codec) (s : AppState) (d : String)
    (hd : d ≠ s.doc) :
    step P s Ev.compStart = s ∧ step P s Ev.compEnd = s ∧
    (run P s [Ev.compStart, Ev.edit d, Ev.timerFire]).fired = s.fired ++ [d] := by
  refine ⟨rfl, rfl, ?_⟩
  have h1 : run P s [Ev.compStart, Ev.edit d, Ev.timerFire]
      = commitStep P d { s with doc := d, saveTimer := some d } := by
    rw [run_cons]
    show run P s [Ev.edit d, Ev.timerFire] = _
    rw [run_cons, step_edit P s d hd]
    rfl
  rw [h1, commitStep_eq]

/-- Witness for the amended C2 at concrete inputs. -/
theorem c2_amended_witness :
    step P0 s0 Ev.compStart = s0 ∧ step P0 s0 Ev.compEnd = s0 ∧
    (run P0 s0 [Ev.compStart, Ev.edit "abc", Ev.timerFire]).fired = s0.fired ++ ["abc"] :=
  c2_amended_composition_inert P0 s0 "abc" (by decide)

/-! ## Failure semantics of a commit (claim C9) -/

/-- Counterexample to C9: a commit that fails partway (here: compression
raises, modelled by the always-failing codec) does NOT leave the persisted
state equal to the last successfully committed state — the localStorage
write at line 124 precedes the fallible compress at line 128, so the cache
already holds the new snapshot when the failure happens.  The link token is
untouched and nothing is rescheduled. -/
theorem c9_failed_commit_cache_already_written :
    compress Pfail "new" = none ∧
    (step Pfail sOld Ev.timerFire).cache = some "new" ∧
    (step Pfail sOld Ev.timerFire).cache ≠ some "old" ∧
    (step Pfail sOld Ev.timerFire).hash = some "H" ∧
    (step Pfail sOld Ev.timerFire).saveTimer = none := by
  decide

/-- C9 as amended: when a commit fails at the compression step, no automatic
retry occurs (nothing remains or becomes scheduled by the failure) and the
link token and title keep their previous values, but the durable cache was
already written with the new snapshot before the failure; a subsequent edit
re-triggers a fresh attempt as usual. -/
theorem c9_amended_failure_semantics (P : Codec) (s : AppState) (c d : String)
    (hp : s.saveTimer = some c)
    (hfail : P.deflateRaw (P.utf8Encode c) = none)
    (hd : d ≠ s.doc) :
    compress P c = none ∧
    (step P s Ev.timerFire).cache = some c ∧
    (step P s Ev.timerFire).hash = s.hash ∧
    (step P s Ev.timerFire).title = s.title ∧
    (step P s Ev.timerFire).saveTimer = none ∧
    (step P (step P s Ev.timerFire) (Ev.edit d)).saveTimer = some d := by
  have h1 : step P s Ev.timerFire = commitStep P c s := by
    simp only [step, hp]
  have hdoc : (step P s Ev.timerFire).doc = s.doc := by
    rw [h1, commitStep_eq]
  refine ⟨?_, ?_, ?_, ?_, ?_, ?_⟩
  · rw [compress, hfail]
    rfl
  · rw [h1, commitStep_eq]
  · rw [h1, commitStep_eq]
  · rw [h1, commitStep_eq]
  · rw [h1, commitStep_eq]
  · rw [step_edit P (step P s Ev.timerFire) d (by rw [hdoc]; exact hd)]

/-- Witness for the amended C9 at concrete inputs. -/
theorem c9_amended_witness :
    compress Pfail "new" = none ∧
    (step Pfail sOld Ev.timerFire).cache = some "new" ∧
    (step Pfail sOld Ev.timerFire).hash = sOld.hash ∧
    (step Pfail sOld Ev.timerFire).title = sOld.title ∧
    (step Pfail sOld Ev.timerFire).saveTimer = none ∧
    (step Pfail (step Pfail sOld Ev.timerFire) (Ev.edit "x")).saveTimer = some "x" :=
  c9_amended_failure_semantics Pfail sOld "new" "x" rfl rfl (by decide)

/-! ## Empty-content commit (claim C7) -/

/-- C7 against the code, evaluated at the failing inputs.  What holds:
committing an empty snapshot does not invoke compression and writes the
empty string to the cache.  What fails: the link is NOT cleared — the
history.replaceState(null, null, location.pathname) call at line 131 throws
because the module-scope name history is the @codemirror/commands import
(line 8), not window.history, so the old token survives in the fragment;
and a whitespace-only snapshot writes itself (not the empty string) to the
cache, since line 124 stores content, not its trim. -/
theorem c7_empty_commit_link_not_cleared :
    (step P0 sEmpty Ev.timerFire).cache = some "" ∧
    (step P0 sEmpty Ev.timerFire).compressCalls = [] ∧
    (step P0 sEmpty Ev.timerFire).hash = some "OLD" ∧
    (step P0 sWs Ev.timerFire).hash = some "OLD" ∧
    (step P0 sWs Ev.timerFire).cache = some "  " ∧
    (step P0 sWs Ev.timerFire).cache ≠ some "" ∧
    (step P0 sWs Ev.timerFire).compressCalls = [] := by
  decide

/-! ## Startup resolution (claim C3) -/

/-- Counterexample to C3: with a garbage fragment (the single character !,
whose padded length atob rejects) and a durable cache holding the text
cached text, the initial document is the built-in default, not the cached
text — the localStorage read at lines 155-156 is the else branch of the
fragment-presence test at line 151 and is skipped even though the decode
failed. -/
theorem c3_garbage_hash_ignores_cache :
    initialContent P0 (some "!") (some "cached text") = dfltDoc ∧
    initialContent P0 (some "!") (some "cached text") ≠ "cached text" := by
  decide

/-- C3 as amended: a fragment with a non-empty token that decodes to
non-empty text wins; a fragment with a non-empty token that fails to decode
yields the built-in default, ignoring the cache entirely; only when the
fragment is absent or empty is the cache consulted, a non-empty entry
winning, with the built-in default as the final fallback. -/
theorem c3_amended_startup_resolution (P : Codec) :
    (∀ tok cache, 0 < tok.length → 0 < (decompress P tok).length →
        initialContent P (some tok) cache = decompress P tok) ∧
    (∀ tok cache, 0 < tok.length → (decompress P tok).length = 0 →
        initialContent P (some tok) cache = dfltDoc) ∧
    (∀ cache, initialContent P none cache = cacheOrDefault cache) ∧
    (∀ cache, initialContent P (some "") cache = cacheOrDefault cache) ∧
    (∀ stored, 0 < stored.length → cacheOrDefault (some stored) = stored) ∧
    cacheOrDefault none = dfltDoc := by
  refine ⟨?_, ?_, fun _ => rfl, fun _ => rfl, ?_, rfl⟩
  · intro tok cache h1 h2
    simp only [initialContent]
    rw [if_pos h1, if_pos h2]
  · intro tok cache h1 h2
    simp only [initialContent]
    rw [if_pos h1, if_neg (by omega)]
  · intro stored h
    simp only [cacheOrDefault]
    rw [if_pos h]

/-- Witness for the amended C3: the garbage-token conjunct at concrete
inputs. -/
theorem c3_amended_witness :
    initialContent P0 (some "!") (some "other") = dfltDoc :=
  (c3_amended_startup_resolution P0).2.1 "!" (some "other") (by decide) (by decide)

/-! ## Decode failure boundary (claim C10) -/

/-- C10: decompress is total at its call boundary — a failed base64 decode
or a failed inflate yields the empty string rather than an exception — and
both callers treat the empty string as no usable content, so a token whose
decode result is the empty document behaves exactly like a failed decode:
at startup the link is bypassed (falling through to the built-in default,
per the amended C3), and a hash change to such a token changes only the
recorded fragment, never the buffer, and schedules nothing. -/
theorem c10_empty_decode_boundary (P : Codec) (tok : String)
    (hlen : 0 < tok.length) (hdec : decompress P tok = "") :
    (∀ b64, fromBase64Url b64.data = none → decompress P b64 = "") ∧
    (∀ b64 bs, fromBase64Url b64.data = some bs → P.inflateRaw bs = none →
        decompress P b64 = "") ∧
    (∀ cache, initialContent P (some tok) cache = dfltDoc) ∧
    (∀ s, step P s (Ev.hashchange (some tok)) = { s with hash := some tok }) := by
  refine ⟨?_, ?_, ?_, ?_⟩
  · intro b64 h
    simp only [decompress, h]
  · intro b64 bs h1 h2
    simp only [decompress, h1, h2]
  · intro cache
    simp only [initialContent]
    rw [if_pos hlen, hdec]
    rfl
  · intro s
    simp only [step]
    rw [hdec, if_pos hlen, if_neg (by simp)]

/-- Witness for C10: the token AwA decodes (under the witness codec) to the
empty document; startup bypasses it and a hash change to it leaves the
buffer alone. -/
theorem c10_witness :
    initialContent P0 (some "AwA") (some "cached") = dfltDoc ∧
    step P0 sNav (Ev.hashchange (some "AwA")) = { sNav with hash := some "AwA" } := by
  have h := c10_empty_decode_boundary P0 "AwA" (by decide) (by decide)
  exact ⟨h.2.2.1 (some "cached"), h.2.2.2 sNav⟩

/-! ## Title derivation (claim C8) -/

/-- A replicated character passes takeWhile untouched when the predicate
accepts it. -/
theorem takeWhile_repl (p : Char → Bool) (a : Char) (hp : p a = true) :
    ∀ n, (List.replicate n a).takeWhile p = List.replicate n a := by
  intro n
  induction n with
  | zero => rfl
  | succ k ih => simp [List.replicate_succ, List.takeWhile_cons, hp, ih]

/-- A replicated character passes dropWhile untouched when the predicate
rejects it. -/
theorem dropWhile_repl (p : Char → Bool) (a : Char) (hp : p a = false) :
    ∀ n, (List.replicate n a).dropWhile p = List.replicate n a := by
  intro n
  cases n with
  | zero => rfl
  | succ k => simp [List.replicate_succ, List.dropWhile_cons, hp]

/-- Trimming does nothing to a run of a characters. -/
theorem jsTrim_repl (n : Nat) : jsTrim (List.replicate n 'a') = List.replicate n 'a' := by
  have ha : isJsWs 'a' = false := by decide
  simp [jsTrim, dropWhile_repl _ _ ha, List.reverse_replicate]

/-- Counterexample to C8: no length bound exists under which the claim's
title rule agrees with the source — for any candidate bound B, a document
whose first line is B+1 letters gets that whole line as its title from the
code (line 138 tests only non-emptiness), while the claim's bounded rule
falls back to the default title. -/
theorem c8_no_length_bound : ¬ ∃ bound, ∀ s, deriveTitle s = claimTitle bound s := by
  rintro ⟨B, h⟩
  have hs := h (String.mk (List.replicate (B + 1) 'a'))
  have hdata : (String.mk (List.replicate (B + 1) 'a')).data = List.replicate (B + 1) 'a' := rfl
  have htw : (List.replicate (B + 1) 'a').takeWhile (fun c => c != '\n')
      = List.replicate (B + 1) 'a' := takeWhile_repl _ _ (by decide) _
  have hL : deriveTitle (String.mk (List.replicate (B + 1) 'a'))
      = String.mk (List.replicate (B + 1) 'a') := by
    simp only [deriveTitle, hdata, htw, jsTrim_repl]
    rw [if_neg ?pre, if_pos ?len]
    case pre =>
      rw [List.replicate_succ]
      simp [List.isPrefixOf]
    case len =>
      rw [List.replicate_succ]
      simp
  have hR : claimTitle B (String.mk (List.replicate (B + 1) 'a')) = "Markdown Editor" := by
    simp only [claimTitle, hdata, htw, jsTrim_repl]
    rw [if_neg ?p1, if_neg ?p2, if_neg ?p3]
    case p1 =>
      rw [List.replicate_succ]
      simp [List.take_succ_cons]
    case p2 =>
      rw [List.replicate_succ]
      simp
    case p3 =>
      rw [List.length_replicate]
      omega
  rw [hL, hR] at hs
  have hlist : List.replicate (B + 1) 'a' = "Markdown Editor".data := congrArg String.data hs
  rw [List.replicate_succ,
    show ("Markdown Editor".data) = 'M' :: "arkdown Editor".data from rfl] at hlist
  injection hlist with h1 _
  exact absurd h1 (by decide)

/-- C8 as amended: the derived title is the stated pure function of the
snapshot with the bounded-length condition removed — heading marker plus
space yields the remainder of the trimmed first line, any other non-empty
trimmed first line yields itself (with no upper bound on its length), and
an empty trimmed first line yields the fixed default; in particular the
document # Hello, blank line, body yields the title Hello. -/
theorem c8_amended_title_derivation :
    (∀ s, deriveTitle s = amendedTitle s) ∧ deriveTitle "# Hello\n\nbody" = "Hello" := by
  constructor
  · intro s
    simp only [deriveTitle, amendedTitle]
    generalize jsTrim (s.data.takeWhile (fun c => c != '\n')) = l
    rcases l with _ | ⟨c, _ | ⟨c2, rest⟩⟩
    · simp [List.isPrefixOf]
    · simp [List.isPrefixOf, List.take]
    · by_cases hc : c = '#' <;> by_cases hc2 : c2 = ' ' <;>
        simp [List.isPrefixOf, List.take, hc, hc2]
      · intro hy
        exact absurd hy.symm hc2
      · intro hx
        exact absurd hx.symm hc
      · intro hx hy
        exact absurd hx.symm hc
  · decide
